import Mathlib

/-! # The Tencent CLS logger adapter (`log/tencent/logger.go`)

A shallow embedding of the record builder `Logger.buildLogRaw`, of the
dispatch routine `Logger.log` and of the level methods built on it, with
theorems about record contents, the stack encoding, the buffer pool and the
order of effects on the remote producer, the local sink and the process.

Modelling conventions.

* A Go `string` is a sequence of bytes.  It is represented by a Lean `String`
  whose characters stand for the code units of the Go string, so `len s` is
  `s.length` and `s[:n]` keeps the first `n` characters.  The code never looks
  inside the strings it is given, it only concatenates them with ASCII text.
* `map[string]string` is an association list with insert-or-replace.
* `bytes.Buffer` is the string written so far; `sync.Pool` is the list of the
  buffers it currently holds.
* The packages `log` (levels, entities, the local sink), `cls` (the remote
  producer), `fmt`, `time` and `os` are outside this file.  What they return is
  supplied by a record of oracles (`Deps`); what is done to them is appended to
  an effect trace.  The calls `SendLog`, `e.Log()` and the producer's `Close`
  are taken to return.
* Go integers (`frame.Line`, the Unix time) are unbounded `Int`s here; no
  arithmetic is done on them.
* A run-time panic ends the call with `Outcome.panicked` (for `buildLogRaw`:
  the result `none`) and skips what would follow.
-/

namespace log

/-- The type `log.Level`, an ordered integer code. -/
abbrev Level := Int

/-- One captured stack frame (`Function`, `File`, `Line` of a `runtime.Frame`). -/
structure Frame where
  Function : String
  File : String
  Line : Int
deriving DecidableEq, Repr

/-- The fields of `log.Entity` that the adapter reads. -/
structure Entity where
  Level : Level
  Time : String
  Caller : String
  Message : String
  Frames : List Frame
deriving DecidableEq, Repr

end log

namespace tencent

/-! ## Strings, formatting verbs, maps, buffers -/

/-- The ASCII digit for `d < 10`. -/
def digitChar (d : Nat) : Char := Char.ofNat (48 + d)

/-- Decimal digits of `n`, most significant first, in front of `acc`. -/
def decimalAux : Nat → Nat → List Char → List Char
  | 0, _, acc => acc
  | fuel + 1, n, acc =>
    if n / 10 = 0 then digitChar (n % 10) :: acc
    else decimalAux fuel (n / 10) (digitChar (n % 10) :: acc)

/-- Decimal form of a natural number. -/
def formatNat (n : Nat) : List Char := decimalAux (n + 1) n []

/-- The verb `%d` applied to a Go `int`: a minus sign for negative values, then
the decimal digits of the magnitude. -/
def formatInt (i : Int) : String :=
  if i < 0 then ⟨'-' :: formatNat i.natAbs⟩ else ⟨formatNat i.natAbs⟩

/-- The slice expression `s[:n]`: `none` stands for the run-time panic raised
when `n` exceeds `len s`. -/
def slicePrefix (s : String) (n : Nat) : Option String :=
  if n ≤ s.length then some ⟨s.data.take n⟩ else none

/-- A `map[string]string`. -/
abbrev Raw := List (String × String)

/-- The assignment `m[k] = v`. -/
def mapSet : Raw → String → String → Raw
  | [], k, v => [(k, v)]
  | (k', v') :: rest, k, v =>
    if k' = k then (k, v) :: rest else (k', v') :: mapSet rest k v

/-- The lookup `m[k]` with its presence flag. -/
def mapGet : Raw → String → Option String
  | [], _ => none
  | (k', v') :: rest, k => if k' = k then some v' else mapGet rest k

/-- The keys of a map. -/
def mapKeys (m : Raw) : List String := m.map Prod.fst

/-- The content of a `bytes.Buffer`. -/
abbrev Buffer := String

/-- The items held by the `sync.Pool` of buffers. -/
abbrev Pool := List Buffer

/-- The call `fmt.Fprint(b, s)` for a string operand. -/
def Fprint (b : Buffer) (s : String) : Buffer := b ++ s

/-- The call `b.Reset()`. -/
def bufferReset (_b : Buffer) : Buffer := ""

/-- The call `bufferPool.Get()`.  The pool hands out any one of its items, or
ignores them and calls `New`, which yields an empty buffer; `pick` is that
choice. -/
def poolGet (pick : Option Nat) (pool : Pool) : Buffer × Pool :=
  match pick with
  | none => ("", pool)
  | some i =>
    match pool.get? i with
    | some b => (b, pool.eraseIdx i)
    | none => ("", pool)

/-- The call `bufferPool.Put(b)`. -/
def poolPut (b : Buffer) (pool : Pool) : Pool := b :: pool

/-! ## Constants of the file -/

def fieldKeyLevel : String := "level"
def fieldKeyTime : String := "time"
def fieldKeyFile : String := "file"
def fieldKeyMsg : String := "msg"
def fieldKeyStack : String := "stack"
def fieldKeyStackFunc : String := "func"
def fieldKeyStackFile : String := "file"

/-! ## The collaborators -/

/-- A value of type `interface{}` passed to a log call. -/
inductive Any where
  | str (s : String)
  | other (tag : Nat)
deriving DecidableEq, Repr

/-- The fields of `options` read by `Logger.log`. -/
structure options where
  outLevel : log.Level
  topicID : String
  disableSyncing : Bool
deriving DecidableEq, Repr

/-- The logger: its options.  The buffer pool is part of the mutable state. -/
structure Logger where
  opts : options
deriving DecidableEq, Repr

/-- What the packages outside this file answer during one call. -/
structure Deps where
  /-- The constant `log.FatalLevel`. -/
  FatalLevel : log.Level
  /-- The constant `log.PanicLevel`. -/
  PanicLevel : log.Level
  /-- The method `Level.String`. -/
  LevelString : log.Level → String
  /-- The method `Std.Entity` of the local sink. -/
  StdEntity : log.Level → List Any → log.Entity
  /-- The function `fmt.Sprintf`. -/
  Sprintf : String → List Any → String
  /-- The value of `time.Now().Unix()`. -/
  Now : Int
  /-- The error returned by `SendLog` (`none` is `nil`). -/
  SendLog : String → Int → Raw → Option String
  /-- The error returned by the producer's `Close` (`none` is `nil`). -/
  ProducerClose : Int → Option String
  /-- The item chosen by `bufferPool.Get`. -/
  PoolPick : Option Nat

/-- An action on a collaborator. -/
inductive Effect where
  /-- The call `producer.SendLog(topicID, cls.NewCLSLog(time, raw), nil)`. -/
  | SendLog (topicID : String) (time : Int) (raw : Raw)
  /-- The call `e.Log()`, the local render. -/
  | EntityLog (e : log.Entity)
  /-- The call `producer.Close(timeoutMs)`. -/
  | ProducerClose (timeoutMs : Int)
  /-- The call `os.Exit(code)`. -/
  | Exit (code : Int)
deriving DecidableEq, Repr

/-- How a call ends. -/
inductive Outcome where
  | returned
  | panicked
  | exited (code : Int)
deriving DecidableEq, Repr

/-- The mutable world of a logger: the effects so far, the buffer pool, and the
number of entities and records built so far. -/
structure State where
  trace : List Effect
  pool : Pool
  entities : Nat
  records : Nat
deriving DecidableEq, Repr

/-! ## `buildLogRaw` -/

/-- The loop over `e.Frames` of `buildLogRaw`, entered at index `i` with buffer
`b`. -/
def writeFrames (b : Buffer) (i : Nat) : List log.Frame → Buffer
  | [] => b
  | frame :: rest =>
    let b1 :=
      if i = 0 then
        b ++ ("\x7b\"" ++ fieldKeyStackFunc ++ "\":\"" ++ frame.Function ++ "\"")
      else
        b ++ (",\x7b\"" ++ fieldKeyStackFunc ++ "\":\"" ++ frame.Function ++ "\"")
    let b2 :=
      b1 ++ (",\"" ++ fieldKeyStackFile ++ "\":\"" ++ frame.File ++ ":" ++
        formatInt frame.Line ++ "\"\x7d")
    writeFrames b2 (i + 1) rest

/-- The method `Logger.buildLogRaw`.  The first component is the returned map,
or `none` when the call panics; the second is the pool afterwards. -/
def Logger.buildLogRaw (d : Deps) (e : log.Entity) (pool : Pool) : Option Raw × Pool :=
  match slicePrefix (d.LevelString e.Level) 4 with
  | none => (none, pool)
  | some lv =>
    let raw := mapSet [] fieldKeyLevel lv
    let raw := mapSet raw fieldKeyTime e.Time
    let raw := mapSet raw fieldKeyFile e.Caller
    let raw := mapSet raw fieldKeyMsg e.Message
    if e.Frames.length > 0 then
      let (b, pool1) := poolGet d.PoolPick pool
      let b := Fprint b "["
      let b := writeFrames b 0 e.Frames
      let b := Fprint b "]"
      let raw := mapSet raw fieldKeyStack b
      (some raw, poolPut (bufferReset b) pool1)
    else
      (some raw, pool)

/-! ## `log` and the level methods -/

/-- The method `Logger.log`. -/
def Logger.log (d : Deps) (l : Logger) (level : log.Level) (a : List Any) (s : State) :
    Outcome × State :=
  if level < l.opts.outLevel then (Outcome.returned, s)
  else
    let e := d.StdEntity level a
    let s := { s with entities := s.entities + 1 }
    if !l.opts.disableSyncing then
      match Logger.buildLogRaw d e s.pool with
      | (none, pool) => (Outcome.panicked, { s with pool := pool })
      | (some raw, pool) =>
        let s := { s with pool := pool, records := s.records + 1 }
        let _err := d.SendLog l.opts.topicID d.Now raw
        let s := { s with trace := s.trace ++ [Effect.SendLog l.opts.topicID d.Now raw] }
        (Outcome.returned, { s with trace := s.trace ++ [Effect.EntityLog e] })
    else
      (Outcome.returned, { s with trace := s.trace ++ [Effect.EntityLog e] })

/-- The method `Logger.Panic`. -/
def Logger.Panic (d : Deps) (l : Logger) (a : List Any) (s : State) : Outcome × State :=
  Logger.log d l d.PanicLevel a s

/-- The method `Logger.Panicf`. -/
def Logger.Panicf (d : Deps) (l : Logger) (format : String) (a : List Any) (s : State) :
    Outcome × State :=
  Logger.log d l d.PanicLevel [Any.str (d.Sprintf format a)] s

/-- The pool of a logger fresh from `NewLogger`: nothing has been put in. -/
def newPool : Pool := []

/-- The state of a logger fresh from `NewLogger`. -/
def newState : State := { trace := [], pool := newPool, entities := 0, records := 0 }

/-! ## Sample values -/

/-- Oracles for the examples: every level is named by `name`. -/
def sampleDeps (name : String) (pick : Option Nat) : Deps :=
  { FatalLevel := 5, PanicLevel := 6, LevelString := fun _ => name,
    StdEntity := fun lv a =>
      { Level := lv, Time := "t", Caller := "c",
        Message := match a with
          | [Any.str m] => m
          | _ => "",
        Frames := [] },
    Sprintf := fun f _ => f, Now := 0, SendLog := fun _ _ _ => some "unavailable",
    ProducerClose := fun _ => none, PoolPick := pick }

/-- The frame of the example of the specification. -/
def sampleFrame : log.Frame := { Function := "main.Run", File := "main.go", Line := 10 }

/-- An entity carrying `frames`. -/
def sampleEntity (frames : List log.Frame) : log.Entity :=
  { Level := 2, Time := "2022/09/09 18:04:00.000000", Caller := "main.go:10",
    Message := "hello", Frames := frames }

/-! ## Definitions used to state the theorems -/

/-- The value of an ASCII digit. -/
def charDigit (c : Char) : Nat := c.toNat - 48

/-- The digits of `n`, least significant first; zero has the single digit 0. -/
def digitsOf (n : Nat) : List Nat := if n = 0 then [0] else Nat.digits 10 n

/-- The object written for one frame. -/
def frameObject (f : log.Frame) : String :=
  "\x7b\"func\":\"" ++ f.Function ++ "\",\"file\":\"" ++ f.File ++ ":" ++
    formatInt f.Line ++ "\"\x7d"

/-- Every frame of the list written with a comma in front. -/
def commaObjects : List log.Frame → String
  | [] => ""
  | f :: rest => "," ++ frameObject f ++ commaObjects rest

/-- The bracketed, comma-separated list of the frame objects. -/
def stackString (frames : List log.Frame) : String :=
  "[" ++ String.intercalate "," (frames.map frameObject) ++ "]"

/-- Every buffer held by the pool is empty. -/
def PoolClean (pool : Pool) : Prop := ∀ b ∈ pool, b = ""

/-- No function name and no file path of the frames contains a double quote. -/
def QuoteFree (frames : List log.Frame) : Prop :=
  ∀ f ∈ frames, '"' ∉ f.Function.data ∧ '"' ∉ f.File.data

/-- The pool after a sequence of `buildLogRaw` calls. -/
def runBuilds : List (Deps × log.Entity) → Pool → Pool
  | [], pool => pool
  | (d, e) :: rest, pool => runBuilds rest (Logger.buildLogRaw d e pool).2

/-- The text in front of the function name of a frame object. -/
def objectHead : List Char := "\x7b\"func\":\"".data

/-- The text between the function name and the file path, after the quote that
closes the name. -/
def objectMiddle : List Char := ",\"file\":\"".data

/-- A trace that closes no producer and exits no process. -/
def NoCloseNoExit (t : List Effect) : Prop :=
  ∀ ef ∈ t, (∀ ms, ef ≠ Effect.ProducerClose ms) ∧ (∀ c, ef ≠ Effect.Exit c)

/-- A logger for the examples. -/
def sampleLogger (outLevel : log.Level) (disableSyncing : Bool) : Logger :=
  { opts := { outLevel := outLevel, topicID := "topic", disableSyncing := disableSyncing } }

instance instDecidablePoolClean (pool : Pool) : Decidable (PoolClean pool) := by
  unfold PoolClean
  infer_instance

instance instDecidableQuoteFree (frames : List log.Frame) : Decidable (QuoteFree frames) := by
  unfold QuoteFree
  infer_instance

/-- A single frame whose function name carries the text that separates two
frame objects. -/
def collidingOne : List log.Frame :=
  [{ Function := "a\",\"file\":\"b:1\"\x7d,\x7b\"func\":\"c", File := "d", Line := 2 }]

/-- The record built for `sampleEntity [sampleFrame]` when its level is named
`level`. -/
def sampleRaw (level : String) : Raw :=
  [("level", level), ("time", "2022/09/09 18:04:00.000000"), ("file", "main.go:10"),
    ("msg", "hello"), ("stack", "[\x7b\"func\":\"main.Run\",\"file\":\"main.go:10\"\x7d]")]

/-- Two plain frames. -/
def collidingTwo : List log.Frame :=
  [{ Function := "a", File := "b", Line := 1 }, { Function := "c", File := "d", Line := 2 }]

/-! ## Decimal formatting -/

lemma charDigit_digitChar : ∀ d, d < 10 → charDigit (digitChar d) = d := by
  decide

lemma digitChar_not_special :
    ∀ d, d < 10 → digitChar d ≠ '"' ∧ digitChar d ≠ ':' ∧ digitChar d ≠ '-' := by
  decide

lemma decimalAux_eq (fuel : Nat) : ∀ (n : Nat) (acc : List Char), 0 < n → n < fuel →
    decimalAux fuel n acc = ((Nat.digits 10 n).reverse.map digitChar) ++ acc := by
  induction fuel with
  | zero => intro n acc _ h; omega
  | succ k ih =>
    intro n acc hn hlt
    have hd : Nat.digits 10 n = (n % 10) :: Nat.digits 10 (n / 10) :=
      Nat.digits_def' (by norm_num) hn
    unfold decimalAux
    by_cases hq : n / 10 = 0
    · simp [hq, hd]
    · have hpos : 0 < n / 10 := Nat.pos_of_ne_zero hq
      have hlt2 : n / 10 < k := by omega
      rw [if_neg hq, ih (n / 10) _ hpos hlt2, hd]
      simp

lemma formatNat_eq (n : Nat) : formatNat n = (digitsOf n).reverse.map digitChar := by
  unfold formatNat digitsOf
  by_cases h : n = 0
  · subst h; rfl
  · rw [if_neg h, decimalAux_eq (n + 1) n [] (Nat.pos_of_ne_zero h) (Nat.lt_succ_self n)]
    simp

lemma digitsOf_lt (n : Nat) : ∀ d ∈ digitsOf n, d < 10 := by
  intro d hd
  unfold digitsOf at hd
  by_cases h : n = 0
  · simp [h] at hd; omega
  · rw [if_neg h] at hd
    exact Nat.digits_lt_base (by norm_num) hd

lemma digitsOf_ne_nil (n : Nat) : digitsOf n ≠ [] := by
  unfold digitsOf
  by_cases h : n = 0
  · simp [h]
  · rw [if_neg h]
    exact Nat.digits_ne_nil_iff_ne_zero.mpr h

lemma ofDigits_digitsOf (n : Nat) : Nat.ofDigits 10 (digitsOf n) = n := by
  unfold digitsOf
  by_cases h : n = 0
  · simp [h, Nat.ofDigits]
  · rw [if_neg h]
    exact Nat.ofDigits_digits 10 n

lemma map_charDigit_formatNat (n : Nat) :
    (formatNat n).map charDigit = (digitsOf n).reverse := by
  rw [formatNat_eq, List.map_map]
  conv_rhs => rw [← List.map_id (digitsOf n).reverse]
  apply List.map_congr_left
  intro d hd
  exact charDigit_digitChar d (digitsOf_lt n d (List.mem_reverse.mp hd))

lemma formatNat_injective {n m : Nat} (h : formatNat n = formatNat m) : n = m := by
  have h1 := congrArg (List.map charDigit) h
  rw [map_charDigit_formatNat, map_charDigit_formatNat] at h1
  have h2 : digitsOf n = digitsOf m := List.reverse_injective h1
  rw [← ofDigits_digitsOf n, ← ofDigits_digitsOf m, h2]

lemma formatNat_ne_nil (n : Nat) : formatNat n ≠ [] := by
  rw [formatNat_eq]
  simp [digitsOf_ne_nil n]

lemma formatNat_not_special (n : Nat) :
    ∀ c ∈ formatNat n, c ≠ '"' ∧ c ≠ ':' ∧ c ≠ '-' := by
  intro c hc
  rw [formatNat_eq, List.mem_map] at hc
  obtain ⟨d, hd, rfl⟩ := hc
  exact digitChar_not_special d (digitsOf_lt n d (List.mem_reverse.mp hd))

lemma formatInt_not_quote_colon (i : Int) :
    ∀ c ∈ (formatInt i).data, c ≠ '"' ∧ c ≠ ':' := by
  intro c hc
  unfold formatInt at hc
  by_cases h : i < 0
  · rw [if_pos h] at hc
    rcases List.mem_cons.mp hc with hc | hc
    · subst hc; decide
    · exact ⟨(formatNat_not_special _ c hc).1, (formatNat_not_special _ c hc).2.1⟩
  · rw [if_neg h] at hc
    exact ⟨(formatNat_not_special _ c hc).1, (formatNat_not_special _ c hc).2.1⟩

lemma formatInt_injective {i j : Int} (h : formatInt i = formatInt j) : i = j := by
  unfold formatInt at h
  by_cases hi : i < 0 <;> by_cases hj : j < 0
  · rw [if_pos hi, if_pos hj] at h
    have h1 : formatNat i.natAbs = formatNat j.natAbs := by
      have := congrArg String.data h
      simpa using this
    have := formatNat_injective h1
    omega
  · rw [if_pos hi, if_neg hj] at h
    have h1 : '-' :: formatNat i.natAbs = formatNat j.natAbs := congrArg String.data h
    have hm : '-' ∈ formatNat j.natAbs := by rw [← h1]; simp
    exact absurd rfl (formatNat_not_special _ _ hm).2.2
  · rw [if_neg hi, if_pos hj] at h
    have h1 : formatNat i.natAbs = '-' :: formatNat j.natAbs := congrArg String.data h
    have hm : '-' ∈ formatNat i.natAbs := by rw [h1]; simp
    exact absurd rfl (formatNat_not_special _ _ hm).2.2
  · rw [if_neg hi, if_neg hj] at h
    have h1 : formatNat i.natAbs = formatNat j.natAbs := congrArg String.data h
    have := formatNat_injective h1
    omega

/-! ## The loop writes the frame objects in order -/

lemma writeFrames_succ (frames : List log.Frame) : ∀ (b : Buffer) (i : Nat),
    writeFrames b (i + 1) frames = b ++ commaObjects frames := by
  induction frames with
  | nil => intro b i; simp [writeFrames, commaObjects]
  | cons f rest ih =>
    intro b i
    simp only [writeFrames, commaObjects, frameObject, fieldKeyStackFunc, fieldKeyStackFile]
    rw [if_neg (Nat.succ_ne_zero i), ih]
    apply String.ext
    simp only [String.data_append, List.append_assoc]
    rfl

lemma writeFrames_zero (f : log.Frame) (rest : List log.Frame) (b : Buffer) :
    writeFrames b 0 (f :: rest) = b ++ frameObject f ++ commaObjects rest := by
  simp only [writeFrames, frameObject, fieldKeyStackFunc, fieldKeyStackFile]
  rw [if_pos trivial, writeFrames_succ]
  apply String.ext
  simp only [String.data_append, List.append_assoc]
  rfl

lemma intercalate_go (frames : List log.Frame) : ∀ acc : String,
    String.intercalate.go acc "," (frames.map frameObject) = acc ++ commaObjects frames := by
  induction frames with
  | nil => intro acc; simp [String.intercalate.go, commaObjects]
  | cons f rest ih =>
    intro acc
    simp only [List.map_cons, String.intercalate.go, commaObjects]
    rw [ih]
    simp [String.append_assoc]

lemma stackString_cons (f : log.Frame) (rest : List log.Frame) :
    stackString (f :: rest) = "[" ++ frameObject f ++ commaObjects rest ++ "]" := by
  simp [stackString, String.intercalate, intercalate_go, String.append_assoc]

/-! ## What `buildLogRaw` returns -/

lemma slicePrefix_of_le (s : String) (n : Nat) (h : n ≤ s.length) :
    slicePrefix s n = some ⟨s.data.take n⟩ := by
  simp [slicePrefix, h]

lemma slicePrefix_of_lt (s : String) (n : Nat) (h : s.length < n) :
    slicePrefix s n = none := by
  simp [slicePrefix, Nat.not_le.mpr h]

lemma buildLogRaw_short (d : Deps) (e : log.Entity) (pool : Pool)
    (h : (d.LevelString e.Level).length < 4) :
    Logger.buildLogRaw d e pool = (none, pool) := by
  simp [Logger.buildLogRaw, slicePrefix_of_lt _ _ h]

lemma buildLogRaw_noFrames (d : Deps) (e : log.Entity) (pool : Pool)
    (h : 4 ≤ (d.LevelString e.Level).length) (hf : e.Frames = []) :
    Logger.buildLogRaw d e pool =
      (some [("level", ⟨(d.LevelString e.Level).data.take 4⟩), ("time", e.Time),
        ("file", e.Caller), ("msg", e.Message)], pool) := by
  simp [Logger.buildLogRaw, slicePrefix_of_le _ _ h, hf, mapSet, fieldKeyLevel, fieldKeyTime,
    fieldKeyFile, fieldKeyMsg]

lemma buildLogRaw_frames (d : Deps) (e : log.Entity) (pool : Pool)
    (h : 4 ≤ (d.LevelString e.Level).length) (hf : e.Frames ≠ []) :
    Logger.buildLogRaw d e pool =
      (some [("level", ⟨(d.LevelString e.Level).data.take 4⟩), ("time", e.Time),
        ("file", e.Caller), ("msg", e.Message),
        ("stack", (poolGet d.PoolPick pool).1 ++ stackString e.Frames)],
       "" :: (poolGet d.PoolPick pool).2) := by
  obtain ⟨f, rest, hfr⟩ := List.exists_cons_of_ne_nil hf
  have hw : Fprint (writeFrames (Fprint (poolGet d.PoolPick pool).1 "[") 0 e.Frames) "]"
      = (poolGet d.PoolPick pool).1 ++ stackString e.Frames := by
    rw [hfr, writeFrames_zero, stackString_cons]
    simp [Fprint, String.append_assoc]
  have hlen : e.Frames.length > 0 := List.length_pos.mpr hf
  simp only [Logger.buildLogRaw, slicePrefix_of_le _ _ h, if_pos hlen, hw]
  simp [mapSet, fieldKeyLevel, fieldKeyTime, fieldKeyFile, fieldKeyMsg, fieldKeyStack, poolPut,
    bufferReset]

lemma poolGet_clean (pick : Option Nat) (pool : Pool) (h : PoolClean pool) :
    (poolGet pick pool).1 = "" ∧ PoolClean (poolGet pick pool).2 := by
  unfold poolGet
  cases pick with
  | none => exact ⟨rfl, h⟩
  | some i =>
    cases hg : pool.get? i with
    | none => simp only [hg]; exact ⟨trivial, h⟩
    | some b =>
      simp only [hg]
      refine ⟨h b (List.get?_mem hg), ?_⟩
      intro c hc
      exact h c (List.mem_of_mem_eraseIdx hc)

lemma buildLogRaw_clean (d : Deps) (e : log.Entity) (pool : Pool) (h : PoolClean pool) :
    PoolClean (Logger.buildLogRaw d e pool).2 := by
  by_cases hn : 4 ≤ (d.LevelString e.Level).length
  · by_cases hf : e.Frames = []
    · rw [buildLogRaw_noFrames d e pool hn hf]; exact h
    · rw [buildLogRaw_frames d e pool hn hf]
      intro b hb
      rcases List.mem_cons.mp hb with hb | hb
      · exact hb
      · exact (poolGet_clean d.PoolPick pool h).2 b hb
  · rw [buildLogRaw_short d e pool (Nat.not_le.mp hn)]; exact h

lemma runBuilds_clean (calls : List (Deps × log.Entity)) : ∀ pool : Pool,
    PoolClean pool → PoolClean (runBuilds calls pool) := by
  induction calls with
  | nil => intro pool h; exact h
  | cons c rest ih =>
    intro pool h
    obtain ⟨d, e⟩ := c
    exact ih _ (buildLogRaw_clean d e pool h)

/-! ## Reading a stack string back -/

lemma split_at_first {q : Char} : ∀ (a a' : List Char) {r r' : List Char},
    q ∉ a → q ∉ a' → a ++ q :: r = a' ++ q :: r' → a = a' ∧ r = r' := by
  intro a
  induction a with
  | nil =>
    intro a' r r' _ ha' h
    cases a' with
    | nil => simpa using h
    | cons c cs =>
      simp only [List.nil_append, List.cons_append, List.cons.injEq] at h
      exact absurd (h.1 ▸ List.mem_cons_self _ _) ha'
  | cons c cs ih =>
    intro a' r r' ha ha' h
    cases a' with
    | nil =>
      simp only [List.nil_append, List.cons_append, List.cons.injEq] at h
      exact absurd (h.1 ▸ List.mem_cons_self _ _) ha
    | cons c' cs' =>
      simp only [List.cons_append, List.cons.injEq] at h
      have hcs : q ∉ cs := fun hm => ha (List.mem_cons_of_mem _ hm)
      have hcs' : q ∉ cs' := fun hm => ha' (List.mem_cons_of_mem _ hm)
      obtain ⟨h1, h2⟩ := ih cs' hcs hcs' h.2
      exact ⟨by rw [h.1, h1], h2⟩

lemma split_at_last {q : Char} (a a' : List Char) {r r' : List Char}
    (hr : q ∉ r) (hr' : q ∉ r') (h : a ++ q :: r = a' ++ q :: r') : a = a' ∧ r = r' := by
  have h1 := congrArg List.reverse h
  simp only [List.reverse_append, List.reverse_cons, List.append_assoc, List.singleton_append]
    at h1
  obtain ⟨h2, h3⟩ := split_at_first r.reverse r'.reverse
    (by simpa using hr) (by simpa using hr') h1
  exact ⟨List.reverse_injective h3, List.reverse_injective h2⟩

lemma frameObject_data (f : log.Frame) :
    (frameObject f).data = objectHead ++ (f.Function.data ++ '"' :: (objectMiddle ++
      ((f.File.data ++ ':' :: (formatInt f.Line).data) ++ '"' :: ['\x7d']))) := by
  simp only [frameObject, String.data_append, List.append_assoc]
  rfl

lemma frameObject_tail_injective (f g : log.Frame) (t t' : List Char)
    (hf : '"' ∉ f.Function.data ∧ '"' ∉ f.File.data)
    (hg : '"' ∉ g.Function.data ∧ '"' ∉ g.File.data)
    (h : (frameObject f).data ++ t = (frameObject g).data ++ t') : f = g ∧ t = t' := by
  rw [frameObject_data, frameObject_data] at h
  simp only [List.append_assoc, List.cons_append, List.nil_append] at h
  have h1 := List.append_cancel_left h
  obtain ⟨hF, h2⟩ := split_at_first _ _ hf.1 hg.1 h1
  have h3 := List.append_cancel_left h2
  have hq : ∀ k : log.Frame, '"' ∉ k.File.data →
      '"' ∉ k.File.data ++ ':' :: (formatInt k.Line).data := by
    intro k hk hm
    rcases List.mem_append.mp hm with hm | hm
    · exact hk hm
    · rcases List.mem_cons.mp hm with hm | hm
      · exact absurd hm (by decide)
      · exact (formatInt_not_quote_colon _ _ hm).1 rfl
  have h3' : (f.File.data ++ ':' :: (formatInt f.Line).data) ++ '"' :: ('\x7d' :: t)
      = (g.File.data ++ ':' :: (formatInt g.Line).data) ++ '"' :: ('\x7d' :: t') := by
    simpa using h3
  obtain ⟨h4, h5⟩ := split_at_first _ _ (hq f hf.2) (hq g hg.2) h3'
  have hc : ∀ k : log.Frame, ':' ∉ (formatInt k.Line).data :=
    fun k hm => (formatInt_not_quote_colon _ _ hm).2 rfl
  obtain ⟨hP, hL⟩ := split_at_last _ _ (hc f) (hc g) h4
  have hLine : f.Line = g.Line := formatInt_injective (String.ext hL)
  refine ⟨?_, by simpa using h5⟩
  cases f; cases g
  simp only [log.Frame.mk.injEq]
  exact ⟨String.ext hF, String.ext hP, hLine⟩

lemma commaObjects_injective (fs : List log.Frame) : ∀ gs : List log.Frame,
    QuoteFree fs → QuoteFree gs →
    (commaObjects fs).data ++ [']'] = (commaObjects gs).data ++ [']'] → fs = gs := by
  induction fs with
  | nil =>
    intro gs _ _ h
    cases gs with
    | nil => rfl
    | cons g gs =>
      simp only [commaObjects, String.data_append, List.append_assoc] at h
      exact absurd h (by
        intro hh
        have := congrArg List.head? hh
        simp at this)
  | cons f fs ih =>
    intro gs hfs hgs h
    cases gs with
    | nil =>
      simp only [commaObjects, String.data_append, List.append_assoc] at h
      exact absurd h (by
        intro hh
        have := congrArg List.head? hh
        simp at this)
    | cons g gs =>
      simp only [commaObjects, String.data_append, List.append_assoc] at h
      have h1 : (frameObject f).data ++ ((commaObjects fs).data ++ [']'])
          = (frameObject g).data ++ ((commaObjects gs).data ++ [']']) := by
        simpa using h
      obtain ⟨hfg, ht⟩ := frameObject_tail_injective f g _ _
        (hfs f (List.mem_cons_self _ _)) (hgs g (List.mem_cons_self _ _)) h1
      have hrest := ih gs (fun k hk => hfs k (List.mem_cons_of_mem _ hk))
        (fun k hk => hgs k (List.mem_cons_of_mem _ hk)) ht
      rw [hfg, hrest]

lemma stackString_injective (fs gs : List log.Frame) (hfs : fs ≠ []) (hgs : gs ≠ [])
    (qf : QuoteFree fs) (qg : QuoteFree gs) (h : stackString fs = stackString gs) : fs = gs := by
  obtain ⟨f, fr, rfl⟩ := List.exists_cons_of_ne_nil hfs
  obtain ⟨g, gr, rfl⟩ := List.exists_cons_of_ne_nil hgs
  rw [stackString_cons, stackString_cons] at h
  have h1 := congrArg String.data h
  simp only [String.data_append, List.append_assoc] at h1
  have h2 : (frameObject f).data ++ ((commaObjects fr).data ++ [']'])
      = (frameObject g).data ++ ((commaObjects gr).data ++ [']']) := by
    simpa using h1
  obtain ⟨hfg, ht⟩ := frameObject_tail_injective f g _ _
    (qf f (List.mem_cons_self _ _)) (qg g (List.mem_cons_self _ _)) h2
  have hrest := commaObjects_injective fr gr (fun k hk => qf k (List.mem_cons_of_mem _ hk))
    (fun k hk => qg k (List.mem_cons_of_mem _ hk)) ht
  rw [hfg, hrest]

/-! ## The four ways `log` can go -/

lemma log_below (d : Deps) (l : Logger) (level : log.Level) (a : List Any) (s : State)
    (h : level < l.opts.outLevel) : Logger.log d l level a s = (Outcome.returned, s) := by
  simp [Logger.log, h]

lemma log_nosync (d : Deps) (l : Logger) (level : log.Level) (a : List Any) (s : State)
    (h : l.opts.outLevel ≤ level) (hs : l.opts.disableSyncing = true) :
    Logger.log d l level a s = (Outcome.returned,
      { trace := s.trace ++ [Effect.EntityLog (d.StdEntity level a)], pool := s.pool,
        entities := s.entities + 1, records := s.records }) := by
  simp [Logger.log, not_lt.mpr h, hs]

lemma log_sync (d : Deps) (l : Logger) (level : log.Level) (a : List Any) (s : State)
    (h : l.opts.outLevel ≤ level) (hs : l.opts.disableSyncing = false)
    (raw : Raw) (pool : Pool)
    (hb : Logger.buildLogRaw d (d.StdEntity level a) s.pool = (some raw, pool)) :
    Logger.log d l level a s = (Outcome.returned,
      { trace := s.trace ++ [Effect.SendLog l.opts.topicID d.Now raw,
          Effect.EntityLog (d.StdEntity level a)],
        pool := pool, entities := s.entities + 1, records := s.records + 1 }) := by
  simp [Logger.log, not_lt.mpr h, hs, hb]

lemma log_sync_panic (d : Deps) (l : Logger) (level : log.Level) (a : List Any) (s : State)
    (h : l.opts.outLevel ≤ level) (hs : l.opts.disableSyncing = false) (pool : Pool)
    (hb : Logger.buildLogRaw d (d.StdEntity level a) s.pool = (none, pool)) :
    Logger.log d l level a s = (Outcome.panicked,
      { trace := s.trace, pool := pool, entities := s.entities + 1, records := s.records }) := by
  simp [Logger.log, not_lt.mpr h, hs, hb]

lemma buildLogRaw_returns (d : Deps) (e : log.Entity) (pool : Pool)
    (h : 4 ≤ (d.LevelString e.Level).length) :
    ∃ raw pool1, Logger.buildLogRaw d e pool = (some raw, pool1) := by
  by_cases hf : e.Frames = []
  · exact ⟨_, _, buildLogRaw_noFrames d e pool h hf⟩
  · exact ⟨_, _, buildLogRaw_frames d e pool h hf⟩

lemma noCloseNoExit_nil : NoCloseNoExit [] := by
  intro ef h
  cases h

lemma noCloseNoExit_send (topic : String) (now : Int) (raw : Raw) :
    NoCloseNoExit [Effect.SendLog topic now raw] := by
  intro ef h
  rw [List.mem_singleton] at h
  subst h
  exact ⟨fun _ hh => (by cases hh), fun _ hh => (by cases hh)⟩

lemma noCloseNoExit_append_render (t : List Effect) (e : log.Entity) (h : NoCloseNoExit t) :
    NoCloseNoExit (t ++ [Effect.EntityLog e]) := by
  intro ef hm
  rcases List.mem_append.mp hm with hm | hm
  · exact h ef hm
  · rw [List.mem_singleton] at hm
    subst hm
    exact ⟨fun _ hh => (by cases hh), fun _ hh => (by cases hh)⟩

lemma log_no_close_exit (d : Deps) (l : Logger) (level : log.Level) (a : List Any) (s : State) :
    (∀ c, (Logger.log d l level a s).1 ≠ Outcome.exited c) ∧
    ∃ t, (Logger.log d l level a s).2.trace = s.trace ++ t ∧ NoCloseNoExit t := by
  by_cases h : level < l.opts.outLevel
  · rw [log_below d l level a s h]
    exact ⟨fun c hc => (by cases hc), [], by simp, noCloseNoExit_nil⟩
  · have hle := not_lt.mp h
    cases hs : l.opts.disableSyncing with
    | true =>
      rw [log_nosync d l level a s hle hs]
      exact ⟨fun c hc => (by cases hc), [Effect.EntityLog (d.StdEntity level a)], rfl,
        noCloseNoExit_append_render [] _ noCloseNoExit_nil⟩
    | false =>
      cases hb : Logger.buildLogRaw d (d.StdEntity level a) s.pool with
      | mk r pool =>
        cases r with
        | none =>
          rw [log_sync_panic d l level a s hle hs pool hb]
          exact ⟨fun c hc => (by cases hc), [], by simp, noCloseNoExit_nil⟩
        | some raw =>
          rw [log_sync d l level a s hle hs raw pool hb]
          exact ⟨fun c hc => (by cases hc), _, rfl,
            noCloseNoExit_append_render _ _ (noCloseNoExit_send _ _ _)⟩

/-- C1: a call of `log` with a level strictly below `outLevel` returns at once
and leaves the whole state as it was: nothing is added to the effect trace (no
`SendLog`, no local render), the buffer pool is the same, and no entity and no
record has been built; `disableSyncing` plays no part. -/
theorem log_below_threshold_no_effect (d : Deps) (l : Logger) (level : log.Level)
    (a : List Any) (s : State) (h : level < l.opts.outLevel) :
    Logger.log d l level a s = (Outcome.returned, s) ∧
    (Logger.log d l level a s).2.trace = s.trace ∧
    (Logger.log d l level a s).2.pool = s.pool ∧
    (Logger.log d l level a s).2.entities = s.entities ∧
    (Logger.log d l level a s).2.records = s.records := by
  rw [log_below d l level a s h]
  exact ⟨rfl, rfl, rfl, rfl, rfl⟩

theorem log_below_threshold_no_effect_witness :
    ((1 : log.Level) < (sampleLogger 2 false).opts.outLevel) ∧
    Logger.log (sampleDeps "INFO" none) (sampleLogger 2 false) 1 [Any.str "x"] newState
      = (Outcome.returned, newState) :=
  ⟨by decide,
   (log_below_threshold_no_effect (sampleDeps "INFO" none) (sampleLogger 2 false) 1
      [Any.str "x"] newState (by decide)).1⟩

/-- C2, amended: a call of `log` with a level at or above `outLevel` returns
normally and appends to the trace, when syncing is disabled, exactly one local
render of the entity; when syncing is enabled and the canonical name of the
entity's level has at least 4 bytes, exactly one `SendLog` carrying the topic
and the record that `buildLogRaw` returns for the entity, followed by one local
render of that entity.  The result of `SendLog` is discarded: replacing the
producer's answer by any other changes nothing. -/
theorem log_dual_sink_trace (d : Deps) (l : Logger) (level : log.Level) (a : List Any)
    (s : State) (hlevel : l.opts.outLevel ≤ level) :
    (l.opts.disableSyncing = false →
      4 ≤ (d.LevelString (d.StdEntity level a).Level).length →
      ∃ raw, (Logger.buildLogRaw d (d.StdEntity level a) s.pool).1 = some raw ∧
        (Logger.log d l level a s).1 = Outcome.returned ∧
        (Logger.log d l level a s).2.trace = s.trace ++
          [Effect.SendLog l.opts.topicID d.Now raw, Effect.EntityLog (d.StdEntity level a)]) ∧
    (l.opts.disableSyncing = true →
      (Logger.log d l level a s).1 = Outcome.returned ∧
      (Logger.log d l level a s).2.trace = s.trace ++
        [Effect.EntityLog (d.StdEntity level a)]) ∧
    (∀ answer : String → Int → Raw → Option String,
      Logger.log { d with SendLog := answer } l level a s = Logger.log d l level a s) := by
  refine ⟨?_, ?_, ?_⟩
  · intro hs hname
    obtain ⟨raw, pool, hb⟩ := buildLogRaw_returns d (d.StdEntity level a) s.pool hname
    refine ⟨raw, by rw [hb], ?_, ?_⟩
    · rw [log_sync d l level a s hlevel hs raw pool hb]
    · rw [log_sync d l level a s hlevel hs raw pool hb]
  · intro hs
    rw [log_nosync d l level a s hlevel hs]
    exact ⟨rfl, rfl⟩
  · intro answer
    rfl

theorem log_dual_sink_trace_witness :
    ((sampleLogger 2 false).opts.outLevel ≤ (2 : log.Level)) ∧
    (sampleLogger 2 false).opts.disableSyncing = false ∧
    4 ≤ ((sampleDeps "INFO" none).LevelString
      ((sampleDeps "INFO" none).StdEntity 2 [Any.str "x"]).Level).length ∧
    (Logger.log (sampleDeps "INFO" none) (sampleLogger 2 false) 2 [Any.str "x"] newState).1
      = Outcome.returned :=
  ⟨by decide, rfl, by decide,
   match (log_dual_sink_trace (sampleDeps "INFO" none) (sampleLogger 2 false) 2
      [Any.str "x"] newState (by decide)).1 rfl (by decide) with
   | ⟨_, _, h, _⟩ => h⟩

/-- C2, as stated, fails: with syncing enabled, a call at the threshold whose
entity has a level named by the 3-byte "OFF" panics inside `buildLogRaw`
before anything is sent or rendered: the trace stays empty, so it is not one
`SendLog` followed by one local render, and the local render does not happen. -/
theorem log_short_name_no_render :
    (sampleLogger 2 false).opts.outLevel ≤ (2 : log.Level) ∧
    (sampleLogger 2 false).opts.disableSyncing = false ∧
    (sampleDeps "OFF" none).LevelString
      ((sampleDeps "OFF" none).StdEntity 2 [Any.str "x"]).Level = "OFF" ∧
    (Logger.log (sampleDeps "OFF" none) (sampleLogger 2 false) 2 [Any.str "x"] newState).1
      = Outcome.panicked ∧
    (Logger.log (sampleDeps "OFF" none) (sampleLogger 2 false) 2 [Any.str "x"] newState).2.trace
      = [] ∧
    ¬ ∃ raw,
      (Logger.log (sampleDeps "OFF" none) (sampleLogger 2 false) 2 [Any.str "x"]
          newState).2.trace
        = newState.trace ++ [Effect.SendLog (sampleLogger 2 false).opts.topicID
            (sampleDeps "OFF" none).Now raw,
          Effect.EntityLog ((sampleDeps "OFF" none).StdEntity 2 [Any.str "x"])] := by
  have ht : (Logger.log (sampleDeps "OFF" none) (sampleLogger 2 false) 2 [Any.str "x"]
      newState).2.trace = [] := by decide
  refine ⟨by decide, rfl, rfl, by decide, ht, ?_⟩
  rintro ⟨raw, h⟩
  rw [ht] at h
  cases h

/-! ## The record -/

/-- C3: for an entity with a non-empty frame sequence, built on any pool that
earlier builds of a fresh logger have left, the `stack` field of the record is
"[" followed by the frame objects of the frames in input order, joined by
single commas, followed by "]": one object per frame, the i-th one made from
the i-th frame as `{"func":"<Function>","file":"<File>:<Line>"}`.  The
frame `main.Run`, `main.go`, 10 gives the string of the example. -/
theorem buildLogRaw_stack_lists_frames :
    (∀ (d : Deps) (e : log.Entity) (calls : List (Deps × log.Entity)),
      e.Frames ≠ [] → 4 ≤ (d.LevelString e.Level).length →
      ∃ raw, (Logger.buildLogRaw d e (runBuilds calls newPool)).1 = some raw ∧
        mapGet raw fieldKeyStack =
          some ("[" ++ String.intercalate "," (e.Frames.map frameObject) ++ "]") ∧
        (e.Frames.map frameObject).length = e.Frames.length ∧
        ∀ (i : Nat) (f : log.Frame), e.Frames[i]? = some f →
          (e.Frames.map frameObject)[i]? = some
            ("\x7b\"func\":\"" ++ f.Function ++ "\",\"file\":\"" ++ f.File ++ ":" ++
              formatInt f.Line ++ "\"\x7d")) ∧
    ((Logger.buildLogRaw (sampleDeps "INFO" none) (sampleEntity [sampleFrame]) newPool).1.bind
        (fun raw => mapGet raw fieldKeyStack)
      = some "[\x7b\"func\":\"main.Run\",\"file\":\"main.go:10\"\x7d]") := by
  refine ⟨?_, by decide⟩
  intro d e calls hf hname
  have hclean : PoolClean (runBuilds calls newPool) :=
    runBuilds_clean calls newPool (by intro b hb; cases hb)
  have hget := (poolGet_clean d.PoolPick _ hclean).1
  refine ⟨_, by rw [buildLogRaw_frames d e _ hname hf], ?_, by simp, ?_⟩
  · simp [mapGet, fieldKeyStack, hget, stackString]
  · intro i f hi
    simp [hi, frameObject]

theorem buildLogRaw_stack_lists_frames_witness :
    (sampleEntity [sampleFrame]).Frames ≠ [] ∧
    4 ≤ ((sampleDeps "INFO" none).LevelString (sampleEntity [sampleFrame]).Level).length ∧
    ((sampleEntity [sampleFrame]).Frames.map frameObject).length = 1 :=
  ⟨by decide, by decide,
   match buildLogRaw_stack_lists_frames.1 (sampleDeps "INFO" none) (sampleEntity [sampleFrame])
      [] (by decide) (by decide) with
   | ⟨_, _, _, h, _⟩ => h⟩

/-- C4: the keys of the record that `buildLogRaw` returns are exactly `level`,
`time`, `file`, `msg` when the entity has no frames, and then `stack` has no
entry at all; they are exactly `level`, `time`, `file`, `msg`, `stack` when the
entity has at least one frame. -/
theorem buildLogRaw_key_set (d : Deps) (e : log.Entity) (pool : Pool)
    (hname : 4 ≤ (d.LevelString e.Level).length) :
    ∃ raw, (Logger.buildLogRaw d e pool).1 = some raw ∧
      (e.Frames = [] →
        mapKeys raw = ["level", "time", "file", "msg"] ∧ mapGet raw "stack" = none) ∧
      (e.Frames ≠ [] →
        mapKeys raw = ["level", "time", "file", "msg", "stack"] ∧
        (mapGet raw "stack").isSome = true) := by
  by_cases hf : e.Frames = []
  · refine ⟨_, by rw [buildLogRaw_noFrames d e pool hname hf], ?_, fun h => absurd hf h⟩
    intro _
    simp [mapKeys, mapGet]
  · refine ⟨_, by rw [buildLogRaw_frames d e pool hname hf], fun h => absurd h hf, ?_⟩
    intro _
    simp [mapKeys, mapGet]

theorem buildLogRaw_key_set_witness :
    4 ≤ ((sampleDeps "INFO" none).LevelString (sampleEntity []).Level).length ∧
    (Logger.buildLogRaw (sampleDeps "INFO" none) (sampleEntity []) newPool).1.isSome = true :=
  ⟨by decide,
   match buildLogRaw_key_set (sampleDeps "INFO" none) (sampleEntity []) newPool (by decide) with
   | ⟨_, h, _⟩ => by rw [h]; rfl⟩

/-- C5, amended: when the canonical name of the entity's level has at least 4
bytes, `buildLogRaw` returns a record whose `level` field is exactly the first
4 bytes of that name, and so a prefix of it. -/
theorem buildLogRaw_level_first_four (d : Deps) (e : log.Entity) (pool : Pool)
    (hname : 4 ≤ (d.LevelString e.Level).length) :
    ∃ raw lv, (Logger.buildLogRaw d e pool).1 = some raw ∧
      mapGet raw fieldKeyLevel = some lv ∧
      lv.length = 4 ∧
      lv.data = (d.LevelString e.Level).data.take 4 ∧
      lv.data <+: (d.LevelString e.Level).data := by
  have hlen : (⟨(d.LevelString e.Level).data.take 4⟩ : String).length = 4 := by
    show ((d.LevelString e.Level).data.take 4).length = 4
    rw [List.length_take]
    exact Nat.min_eq_left hname
  by_cases hf : e.Frames = []
  · refine ⟨_, ⟨(d.LevelString e.Level).data.take 4⟩,
      by rw [buildLogRaw_noFrames d e pool hname hf], ?_, hlen, rfl, List.take_prefix _ _⟩
    simp [mapGet, fieldKeyLevel]
  · refine ⟨_, ⟨(d.LevelString e.Level).data.take 4⟩,
      by rw [buildLogRaw_frames d e pool hname hf], ?_, hlen, rfl, List.take_prefix _ _⟩
    simp [mapGet, fieldKeyLevel]

theorem buildLogRaw_level_first_four_witness :
    4 ≤ ((sampleDeps "WARNING" none).LevelString (sampleEntity []).Level).length ∧
    (Logger.buildLogRaw (sampleDeps "WARNING" none) (sampleEntity []) newPool).1.isSome
      = true :=
  ⟨by decide,
   match buildLogRaw_level_first_four (sampleDeps "WARNING" none) (sampleEntity []) newPool
      (by decide) with
   | ⟨_, _, h, _⟩ => by rw [h]; rfl⟩

/-- C5, as stated, fails: for a level whose canonical name is the 3-byte "OFF"
the slice `[:4]` panics, so `buildLogRaw` returns no record, and in particular
none whose `level` field is the whole name. -/
theorem buildLogRaw_short_name_panics :
    (sampleDeps "OFF" none).LevelString (sampleEntity []).Level = "OFF" ∧
    (Logger.buildLogRaw (sampleDeps "OFF" none) (sampleEntity []) newPool).1 = none ∧
    ¬ ∃ raw, (Logger.buildLogRaw (sampleDeps "OFF" none) (sampleEntity []) newPool).1 = some raw ∧
        mapGet raw fieldKeyLevel = some "OFF" := by
  have h : (Logger.buildLogRaw (sampleDeps "OFF" none) (sampleEntity []) newPool).1 = none := by
    decide
  refine ⟨rfl, h, ?_⟩
  rintro ⟨raw, hr, _⟩
  rw [h] at hr
  cases hr

/-- C6: the record that `buildLogRaw` returns maps `time` to the entity's
`Time`, `file` to its `Caller` and `msg` to its `Message`, each string as it
is, with or without frames. -/
theorem buildLogRaw_copies_fields (d : Deps) (e : log.Entity) (pool : Pool)
    (hname : 4 ≤ (d.LevelString e.Level).length) :
    ∃ raw, (Logger.buildLogRaw d e pool).1 = some raw ∧
      mapGet raw fieldKeyTime = some e.Time ∧
      mapGet raw fieldKeyFile = some e.Caller ∧
      mapGet raw fieldKeyMsg = some e.Message := by
  by_cases hf : e.Frames = []
  · refine ⟨_, by rw [buildLogRaw_noFrames d e pool hname hf], ?_, ?_, ?_⟩ <;>
      simp [mapGet, fieldKeyTime, fieldKeyFile, fieldKeyMsg]
  · refine ⟨_, by rw [buildLogRaw_frames d e pool hname hf], ?_, ?_, ?_⟩ <;>
      simp [mapGet, fieldKeyTime, fieldKeyFile, fieldKeyMsg]

theorem buildLogRaw_copies_fields_witness :
    4 ≤ ((sampleDeps "INFO" none).LevelString (sampleEntity [sampleFrame]).Level).length ∧
    (Logger.buildLogRaw (sampleDeps "INFO" none) (sampleEntity [sampleFrame]) newPool).1.isSome
      = true :=
  ⟨by decide,
   match buildLogRaw_copies_fields (sampleDeps "INFO" none) (sampleEntity [sampleFrame])
      newPool (by decide) with
   | ⟨_, h, _⟩ => by rw [h]; rfl⟩

/-! ## Fatal and panic levels -/

/-- C8: `Panic` is `log` at the panic level and `Panicf` is `log` at the panic
level on the formatted message, and nothing more: the call never ends in
process termination, and what it appends to the trace holds no producer
`Close` and no exit, below the threshold as well as at or above it. -/
theorem panic_never_closes_or_exits (d : Deps) (l : Logger) (a : List Any) (format : String)
    (s : State) :
    Logger.Panic d l a s = Logger.log d l d.PanicLevel a s ∧
    Logger.Panicf d l format a s
      = Logger.log d l d.PanicLevel [Any.str (d.Sprintf format a)] s ∧
    (∀ c, (Logger.Panic d l a s).1 ≠ Outcome.exited c) ∧
    (∀ c, (Logger.Panicf d l format a s).1 ≠ Outcome.exited c) ∧
    (∃ t, (Logger.Panic d l a s).2.trace = s.trace ++ t ∧ NoCloseNoExit t) ∧
    (∃ t, (Logger.Panicf d l format a s).2.trace = s.trace ++ t ∧ NoCloseNoExit t) :=
  ⟨rfl, rfl, (log_no_close_exit d l d.PanicLevel a s).1,
   (log_no_close_exit d l d.PanicLevel _ s).1,
   (log_no_close_exit d l d.PanicLevel a s).2,
   (log_no_close_exit d l d.PanicLevel _ s).2⟩

/-! ## The buffer pool -/

/-- C9: "every buffer held by the pool is empty" is preserved by
`buildLogRaw` for every entity: without frames the pool is not touched, with
frames the borrowed buffer is put back empty on top of the remaining ones.
Hence after any sequence of builds that starts from a pool of empty buffers,
in particular from the pool of a fresh logger, `Get` hands out an empty
buffer. -/
theorem pool_holds_only_empty_buffers :
    (∀ (d : Deps) (e : log.Entity) (pool : Pool),
      PoolClean pool → PoolClean (Logger.buildLogRaw d e pool).2) ∧
    (∀ (d : Deps) (e : log.Entity) (pool : Pool),
      e.Frames = [] → (Logger.buildLogRaw d e pool).2 = pool) ∧
    (∀ (d : Deps) (e : log.Entity) (pool : Pool),
      e.Frames ≠ [] → 4 ≤ (d.LevelString e.Level).length →
      (Logger.buildLogRaw d e pool).2 = "" :: (poolGet d.PoolPick pool).2) ∧
    (∀ (calls : List (Deps × log.Entity)) (pool : Pool) (pick : Option Nat),
      PoolClean pool →
      PoolClean (runBuilds calls pool) ∧ (poolGet pick (runBuilds calls pool)).1 = "") ∧
    (∀ (calls : List (Deps × log.Entity)) (pick : Option Nat),
      (poolGet pick (runBuilds calls newPool)).1 = "") := by
  refine ⟨buildLogRaw_clean, ?_, ?_, ?_, ?_⟩
  · intro d e pool hf
    by_cases hn : 4 ≤ (d.LevelString e.Level).length
    · rw [buildLogRaw_noFrames d e pool hn hf]
    · rw [buildLogRaw_short d e pool (Nat.not_le.mp hn)]
  · intro d e pool hf hn
    rw [buildLogRaw_frames d e pool hn hf]
  · intro calls pool pick h
    exact ⟨runBuilds_clean calls pool h, (poolGet_clean pick _ (runBuilds_clean calls pool h)).1⟩
  · intro calls pick
    exact (poolGet_clean pick _ (runBuilds_clean calls newPool (by intro b hb; cases hb))).1

theorem pool_holds_only_empty_buffers_witness :
    PoolClean ["", ""] ∧
    PoolClean (Logger.buildLogRaw (sampleDeps "INFO" (some 1)) (sampleEntity [sampleFrame])
      ["", ""]).2 :=
  ⟨by decide,
   pool_holds_only_empty_buffers.1 (sampleDeps "INFO" (some 1)) (sampleEntity [sampleFrame])
     ["", ""] (by decide)⟩

/-! ## Reading the stack back -/

/-- C10: function names and file paths are written into the stack string as
they are.  On frame sequences whose function names and file paths hold no
double quote the encoding is injective: two non-empty such sequences with the
same stack string are the same sequence.  Without that condition it is not:
the one frame of `collidingOne` and the two frames of `collidingTwo` have the
same stack string. -/
theorem stack_encoding_injective_without_quotes :
    (∀ (d1 d2 : Deps) (e1 e2 : log.Entity) (calls1 calls2 : List (Deps × log.Entity))
      (raw1 raw2 : Raw),
      e1.Frames ≠ [] → e2.Frames ≠ [] → QuoteFree e1.Frames → QuoteFree e2.Frames →
      (Logger.buildLogRaw d1 e1 (runBuilds calls1 newPool)).1 = some raw1 →
      (Logger.buildLogRaw d2 e2 (runBuilds calls2 newPool)).1 = some raw2 →
      mapGet raw1 fieldKeyStack = mapGet raw2 fieldKeyStack →
      e1.Frames = e2.Frames) ∧
    (collidingOne.length = 1 ∧ collidingTwo.length = 2 ∧ collidingOne ≠ collidingTwo ∧
      QuoteFree collidingTwo ∧ ¬ QuoteFree collidingOne ∧
      (Logger.buildLogRaw (sampleDeps "INFO" none) (sampleEntity collidingOne) newPool).1.bind
          (fun raw => mapGet raw fieldKeyStack)
        = some ("[\x7b\"func\":\"a\",\"file\":\"b:1\"\x7d," ++
            "\x7b\"func\":\"c\",\"file\":\"d:2\"\x7d]") ∧
      (Logger.buildLogRaw (sampleDeps "INFO" none) (sampleEntity collidingTwo) newPool).1.bind
          (fun raw => mapGet raw fieldKeyStack)
        = some ("[\x7b\"func\":\"a\",\"file\":\"b:1\"\x7d," ++
            "\x7b\"func\":\"c\",\"file\":\"d:2\"\x7d]")) := by
  refine ⟨?_, by decide, by decide, by decide, by decide, by decide, by decide, by decide⟩
  intro d1 d2 e1 e2 calls1 calls2 raw1 raw2 hf1 hf2 q1 q2 h1 h2 hs
  have stackOf : ∀ (d : Deps) (e : log.Entity) (calls : List (Deps × log.Entity)) (raw : Raw),
      e.Frames ≠ [] → (Logger.buildLogRaw d e (runBuilds calls newPool)).1 = some raw →
      mapGet raw fieldKeyStack = some (stackString e.Frames) := by
    intro d e calls raw hf hr
    have hn : 4 ≤ (d.LevelString e.Level).length := by
      by_contra hc
      rw [buildLogRaw_short d e _ (Nat.not_le.mp hc)] at hr
      cases hr
    have hclean : PoolClean (runBuilds calls newPool) :=
      runBuilds_clean calls newPool (by intro b hb; cases hb)
    rw [buildLogRaw_frames d e _ hn hf] at hr
    simp only [Option.some.injEq] at hr
    subst hr
    simp [mapGet, fieldKeyStack, (poolGet_clean d.PoolPick _ hclean).1]
  rw [stackOf d1 e1 calls1 raw1 hf1 h1, stackOf d2 e2 calls2 raw2 hf2 h2] at hs
  exact stackString_injective _ _ hf1 hf2 q1 q2 (Option.some.inj hs)

theorem stack_encoding_injective_without_quotes_witness :
    (sampleEntity [sampleFrame]).Frames ≠ [] ∧
    QuoteFree (sampleEntity [sampleFrame]).Frames ∧
    (Logger.buildLogRaw (sampleDeps "INFO" none) (sampleEntity [sampleFrame])
        (runBuilds [] newPool)).1 = some (sampleRaw "INFO") ∧
    (Logger.buildLogRaw (sampleDeps "WARN" (some 0)) (sampleEntity [sampleFrame])
        (runBuilds [] newPool)).1 = some (sampleRaw "WARN") ∧
    mapGet (sampleRaw "INFO") fieldKeyStack = mapGet (sampleRaw "WARN") fieldKeyStack ∧
    (sampleEntity [sampleFrame]).Frames = (sampleEntity [sampleFrame]).Frames :=
  ⟨by decide, by decide, by decide, by decide, by decide,
   stack_encoding_injective_without_quotes.1 (sampleDeps "INFO" none)
     (sampleDeps "WARN" (some 0)) (sampleEntity [sampleFrame]) (sampleEntity [sampleFrame])
     [] [] (sampleRaw "INFO") (sampleRaw "WARN") (by decide) (by decide) (by decide)
     (by decide) (by decide) (by decide) (by decide)⟩

end tencent
